import Mathlib

/-!
A shallow embedding of the Verilator-generated register-file simulation model
(`obj_dir/Vregfile*.cpp`, `Vregfile___024root.h`): the design state container,
the sequential (NBA) and settle logic blocks, the trigger evaluators, and the
per-region convergence loops, together with theorems about reset behaviour,
increment wraparound, the output composition, evaluation idempotence,
convergence-cap enforcement, edge-only triggering and reachable-state
invariants.

Machine integers are modelled as `Nat` with explicit `% 2^w` wherever the C++
code truncates (`IData` is 32-bit, `QData` is 64-bit, `CData` 1-bit signals are
`Bool`).  The fatal non-convergence aborts (`VL_FATAL_MT`) are modelled with
`Except VlFatal`.
-/

/-- A fatal simulator diagnostic, as raised by `VL_FATAL_MT(file, line, hier, msg)`. -/
structure VlFatal where
  filename : String
  line : Nat
  hier : String
  msg : String
  deriving DecidableEq, Repr

/-- The design-specific state of `Vregfile___024root` (from `Vregfile___024root.h`):
the 1-bit inputs `clock` and `reset`, the 32-bit output `val`, the 64-bit
internal register `regfile__DOT__regs`, the previous-value snapshots used for
edge detection (`__Vtrigprevexpr___TOP__clock__0` / `...reset__0`), and the
per-region trigger and iteration bookkeeping. -/
@[ext]
structure VState where
  clock : Bool
  reset : Bool
  vstlFirstIteration : Bool
  vtrigprevClock : Bool
  vtrigprevReset : Bool
  vactContinue : Bool
  val : Nat
  vactIterCount : Nat
  regs : Nat
  vstlTriggered : Bool
  vactTriggered0 : Bool
  vactTriggered1 : Bool
  vnbaTriggered0 : Bool
  vnbaTriggered1 : Bool
  deriving DecidableEq, Repr

/-- The next-register computation of the NBA block as a function of the inputs it
reads: the `reset` input and the pre-edge register value.  If `reset` is set the
whole 64-bit register becomes 0; otherwise the low 32 bits are replaced by
`(low32 + 1) mod 2^32` and then bits 16–31 are replaced by
`(bits16to47 + 1) mod 2^16` — both increments reading the pre-edge `regs`. -/
def nbaRegsUpd (reset : Bool) (regs : Nat) : Nat :=
  if reset then 0
  else
    let vdly1 := (0xffffffff00000000 &&& regs) ||| ((1 + regs % 0x100000000) % 0x100000000)
    (0xffffffff0000ffff &&& vdly1) |||
      ((0x0000ffff &&& ((1 + (regs >>> 0x10) % 0x100000000) % 0x100000000)) <<< 0x10)

/-- The output assignment at the end of the NBA block
(`Vregfile___024root___nba_sequent__TOP__0`, final statement), as a function of
the (committed) register value. -/
def nbaValUpd (regs : Nat) : Nat :=
  (0x0000000e &&& ((((regs >>> 0x11) % 0x100000000) <<< 1) % 0x100000000)) |||
    (1 &&& (regs % 0x100000000))

/-- The output assignment of the settle block
(`Vregfile___024root___stl_sequent__TOP__0`), as a function of the register value. -/
def stlValUpd (regs : Nat) : Nat :=
  (0x0000000e &&& ((((regs >>> 0x11) % 0x100000000) <<< 1) % 0x100000000)) |||
    (1 &&& (regs % 0x100000000))

/-- The NBA-region sequential block `Vregfile___024root___nba_sequent__TOP__0`:
reads the register into the shadow variable `__Vdly__regfile__DOT__regs`,
computes the next value (reset clear, or the two field increments — each
reading the pre-edge `regfile__DOT__regs`), commits it with a single write, then
drives the output `val` from the committed register. -/
def nba_sequent (s : VState) : VState :=
  let vdly0 : Nat := s.regs
  let vdly : Nat :=
    if s.reset then 0
    else
      let vdly1 := (0xffffffff00000000 &&& vdly0) ||| ((1 + s.regs % 0x100000000) % 0x100000000)
      (0xffffffff0000ffff &&& vdly1) |||
        ((0x0000ffff &&& ((1 + (s.regs >>> 0x10) % 0x100000000) % 0x100000000)) <<< 0x10)
  let regs := vdly
  let val := (0x0000000e &&& ((((regs >>> 0x11) % 0x100000000) <<< 1) % 0x100000000)) |||
    (1 &&& (regs % 0x100000000))
  { s with regs := regs, val := val }

/-- The settle block `Vregfile___024root___stl_sequent__TOP__0`: recompute the
output from the current register. -/
def stl_sequent (s : VState) : VState :=
  { s with val := stlValUpd s.regs }

/-- Modelled from the spec: `Vregfile___024root___eval_triggers__act` is declared
but not defined in the given sources.  Per the spec (§4.2) the trigger evaluator
compares each watched signal against its previously snapshotted value to detect
a rising (0→1) edge, produces one trigger bit per watched edge (index 0:
`@(posedge clock)`, index 1: `@(posedge reset)`, as listed by
`Vregfile___024root___dump_triggers__act`), and re-snapshots the previous
values (`__Vtrigprevexpr___TOP__clock__0` / `...reset__0`). -/
def eval_triggers_act (s : VState) : VState :=
  { s with
    vactTriggered0 := s.clock && !s.vtrigprevClock
    vactTriggered1 := s.reset && !s.vtrigprevReset
    vtrigprevClock := s.clock
    vtrigprevReset := s.reset }

/-- Modelled from the spec: `Vregfile___024root___eval_triggers__stl` is declared
but not defined in the given sources.  Per the spec (§4.2, §4.4) and
`Vregfile___024root___dump_triggers__stl`, the settle-region trigger fires
exactly on the first settle iteration (`__VstlFirstIteration`). -/
def eval_triggers_stl (s : VState) : VState :=
  { s with vstlTriggered := s.vstlFirstIteration }

/-- `Vregfile___024root___eval_act` (empty body). -/
def eval_act (s : VState) : VState := s

/-- `Vregfile___024root___eval_nba`: run the NBA sequential block when any of the
two NBA trigger bits is set (`3ULL & __VnbaTriggered.word(0)`). -/
def eval_nba (s : VState) : VState :=
  if s.vnbaTriggered0 || s.vnbaTriggered1 then nba_sequent s else s

/-- `Vregfile___024root___eval_stl`: run the settle block when the settle trigger
bit is set (`1ULL & __VstlTriggered.word(0)`). -/
def eval_stl (s : VState) : VState :=
  if s.vstlTriggered then stl_sequent s else s

/-- `Vregfile___024root___eval_phase__stl`: evaluate the settle triggers, run the
settle logic if any fired; return whether anything executed. -/
def eval_phase_stl (s : VState) : Bool × VState :=
  let s1 := eval_triggers_stl s
  let ex := s1.vstlTriggered
  (ex, if ex then eval_stl s1 else s1)

/-- `Vregfile___024root___eval_phase__act`: evaluate the active triggers; if any
fired, propagate them into the NBA trigger vector
(`__VnbaTriggered.thisOr(__VactTriggered)`) and run the (empty) active-region
logic.  The dead local `__VpreTriggered` is omitted. -/
def eval_phase_act (s : VState) : Bool × VState :=
  let s1 := eval_triggers_act s
  let ex := s1.vactTriggered0 || s1.vactTriggered1
  if ex then
    let s2 := { s1 with
      vnbaTriggered0 := s1.vnbaTriggered0 || s1.vactTriggered0
      vnbaTriggered1 := s1.vnbaTriggered1 || s1.vactTriggered1 }
    (ex, eval_act s2)
  else (ex, s1)

/-- `Vregfile___024root___eval_phase__nba`: if any NBA trigger bit is set, run the
NBA logic and clear the NBA trigger vector; return whether anything executed. -/
def eval_phase_nba (s : VState) : Bool × VState :=
  let ex := s.vnbaTriggered0 || s.vnbaTriggered1
  if ex then
    let s1 := eval_nba s
    (ex, { s1 with vnbaTriggered0 := false, vnbaTriggered1 := false })
  else (ex, s)

/-- The diagnostic of `VL_FATAL_MT("regfile.sv", 16, "", "Settle region did not converge.")`. -/
def stlNonConvergence : VlFatal :=
  ⟨"regfile.sv", 16, "", "Settle region did not converge."⟩

/-- The diagnostic of `VL_FATAL_MT("regfile.sv", 16, "", "Active region did not converge.")`. -/
def actNonConvergence : VlFatal :=
  ⟨"regfile.sv", 16, "", "Active region did not converge."⟩

/-- The diagnostic of `VL_FATAL_MT("regfile.sv", 16, "", "NBA region did not converge.")`. -/
def nbaNonConvergence : VlFatal :=
  ⟨"regfile.sv", 16, "", "NBA region did not converge."⟩

/-- The settle-region convergence loop of `Vregfile___024root___eval_settle`:
`count` and `cont` model the locals `__VstlIterCount` and `__VstlContinue`; the
cap check `100 < __VstlIterCount` precedes each iteration and aborts with the
Settle non-convergence diagnostic; `__VstlFirstIteration` is lowered at the end
of every iteration. -/
def settleLoop (count : Nat) (cont : Bool) (s : VState) : Except VlFatal VState :=
  if cont then
    if _h : 100 < count then .error stlNonConvergence
    else
      let p := eval_phase_stl s
      settleLoop (count + 1) p.1 { p.2 with vstlFirstIteration := false }
  else .ok s
termination_by 101 - count
decreasing_by omega

/-- `Vregfile___024root___eval_settle`: zero the iteration count, raise
`__VstlFirstIteration`, and run the settle convergence loop. -/
def eval_settle (s : VState) : Except VlFatal VState :=
  settleLoop 0 true { s with vstlFirstIteration := true }

theorem eval_phase_act_vactIterCount (s : VState) :
    (eval_phase_act s).2.vactIterCount = s.vactIterCount := by
  unfold eval_phase_act eval_triggers_act eval_act
  simp only []
  split <;> rfl

/-- The active-region convergence loop inside `Vregfile___024root___eval`:
`__VactIterCount` and `__VactContinue` live in the design state; the cap check
`100 < __VactIterCount` precedes each iteration and aborts with the Active
non-convergence diagnostic. -/
def actLoop (s : VState) : Except VlFatal VState :=
  if s.vactContinue then
    if _h : 100 < s.vactIterCount then .error actNonConvergence
    else
      let s1 := { s with vactIterCount := s.vactIterCount + 1, vactContinue := false }
      let p := eval_phase_act s1
      actLoop (if p.1 then { p.2 with vactContinue := true } else p.2)
  else .ok s
termination_by 101 - s.vactIterCount
decreasing_by
  have h1 := eval_phase_act_vactIterCount { s with
    vactIterCount := s.vactIterCount + 1, vactContinue := false }
  split <;> simp_all <;> omega

/-- The NBA-region convergence loop of `Vregfile___024root___eval`: per iteration,
reset and run the active-region loop to convergence, then run the NBA phase;
`count` and `cont` model the locals `__VnbaIterCount` and `__VnbaContinue`; the
cap check `100 < __VnbaIterCount` precedes each iteration and aborts with the
NBA non-convergence diagnostic. -/
def nbaLoop (count : Nat) (cont : Bool) (s : VState) : Except VlFatal VState :=
  if cont then
    if _h : 100 < count then .error nbaNonConvergence
    else
      match actLoop { s with vactIterCount := 0, vactContinue := true } with
      | .error e => .error e
      | .ok s2 =>
        let p := eval_phase_nba s2
        nbaLoop (count + 1) p.1 p.2
  else .ok s
termination_by 101 - count
decreasing_by omega

/-- `Vregfile___024root___eval`. -/
def eval (s : VState) : Except VlFatal VState :=
  nbaLoop 0 true s

/-- `Vregfile___024root___eval_static`: snapshot the current clock/reset values as
previous values for edge detection. -/
def eval_static (s : VState) : VState :=
  { s with vtrigprevClock := s.clock, vtrigprevReset := s.reset }

/-- `Vregfile___024root___eval_initial` (empty body). -/
def eval_initial (s : VState) : VState := s

/-- `Vregfile___024root___eval_final` (empty body). -/
def eval_final (s : VState) : VState := s

/-- Model-level state: `Vregfile__Syms::__Vm_didInit` plus the design state. -/
structure MState where
  didInit : Bool
  top : VState
  deriving DecidableEq, Repr

/-- `Vregfile::eval_step`: on the first call run the static initialization, the
initial blocks and the settle phase (setting `__Vm_didInit`), then — on every
call — run the main evaluation loop. -/
def evalStep (m : MState) : Except VlFatal MState :=
  if m.didInit then
    match eval m.top with
    | .error e => .error e
    | .ok t => .ok ⟨true, t⟩
  else
    match eval_settle (eval_initial (eval_static m.top)) with
    | .error e => .error e
    | .ok s2 =>
      match eval s2 with
      | .error e => .error e
      | .ok t => .ok ⟨true, t⟩

/-- States reachable through the external interface: a freshly constructed
instance (`Vregfile___024root___ctor_var_reset` zero-initializes
`regfile__DOT__regs`; the other signals get arbitrary scoped-random values),
setting the clock/reset inputs, and evaluation steps. -/
inductive Reachable : MState → Prop where
  | construct : ∀ m, m.top.regs = 0 → Reachable m
  | setClock : ∀ m b, Reachable m → Reachable ⟨m.didInit, { m.top with clock := b }⟩
  | setReset : ∀ m b, Reachable m → Reachable ⟨m.didInit, { m.top with reset := b }⟩
  | step : ∀ m t, Reachable m → evalStep m = .ok t → Reachable t

/-- The output composition as worded by the spec, for refinement comparison with
the code: bit 0 = the low bit of the low (32-bit) field, bits 1–3 = the low
three bits of the 16-bit field (register bits 16–31) shifted up by one
position, remaining bits zero. -/
def specOutputComposition (regs : Nat) : Nat :=
  (regs % 0x100000000) % 2 + 2 * ((regs / 0x10000 % 0x10000) % 8)

/-! ### Bitwise-to-arithmetic helper lemmas -/

theorem and_fourteen (z : Nat) : 14 &&& z = 2 * (z / 2 % 8) := by
  have h14 : (14 : Nat) = 2 ^ 1 * (2 ^ 3 - 1) := by norm_num
  have hr : 2 * (z / 2 % 8) = 2 ^ 1 * (z / 2 ^ 1 % 2 ^ 3) := by norm_num
  apply Nat.eq_of_testBit_eq
  intro j
  rw [Nat.testBit_and, h14, hr, Nat.testBit_mul_pow_two, Nat.testBit_mul_pow_two,
    Nat.testBit_mod_two_pow]
  rcases j with _ | i
  · simp
  · simp only [ge_iff_le, Nat.le_add_left, decide_True, Bool.true_and, Nat.add_sub_cancel,
      Nat.testBit_two_pow_sub_one, Nat.pow_one, Nat.testBit_div_two]

theorem and_hi_mask (x : Nat) :
    0xffffffff00000000 &&& x = 4294967296 * (x / 4294967296 % 4294967296) := by
  have hc : (0xffffffff00000000 : Nat) = 2 ^ 32 * (2 ^ 32 - 1) := by norm_num
  have hr : 4294967296 * (x / 4294967296 % 4294967296) = 2 ^ 32 * (x / 2 ^ 32 % 2 ^ 32) := by
    norm_num
  apply Nat.eq_of_testBit_eq
  intro j
  rw [Nat.testBit_and, hc, hr, Nat.testBit_mul_pow_two, Nat.testBit_mul_pow_two,
    Nat.testBit_mod_two_pow, ← Nat.shiftRight_eq_div_pow, Nat.testBit_shiftRight]
  by_cases hj : 32 ≤ j
  · have hadd : 32 + (j - 32) = j := by omega
    rw [hadd]
    simp only [ge_iff_le, hj, decide_True, Bool.true_and, Nat.testBit_two_pow_sub_one]
  · simp [hj]

theorem and_mid_mask (x : Nat) :
    0xffffffff0000ffff &&& x = 4294967296 * (x / 4294967296 % 4294967296) + x % 65536 := by
  have hc : (0xffffffff0000ffff : Nat) = 2 ^ 32 * (2 ^ 32 - 1) + (2 ^ 16 - 1) := by norm_num
  have hb : (2 ^ 16 - 1 : Nat) < 2 ^ 32 := by norm_num
  have hb2 : x % 65536 < 2 ^ 32 := by
    have := Nat.mod_lt x (show 0 < 65536 by norm_num)
    omega
  have hr : 4294967296 * (x / 4294967296 % 4294967296) + x % 65536 =
      2 ^ 32 * (x / 2 ^ 32 % 2 ^ 32) + x % 65536 := by norm_num
  apply Nat.eq_of_testBit_eq
  intro j
  rw [Nat.testBit_and, hc, hr, Nat.testBit_mul_pow_two_add _ hb,
    Nat.testBit_mul_pow_two_add _ hb2]
  by_cases hj : j < 32
  · have h65536 : (65536 : Nat) = 2 ^ 16 := by norm_num
    simp only [hj, if_true, Nat.testBit_two_pow_sub_one, h65536, Nat.testBit_mod_two_pow]
  · simp only [hj, if_false, Nat.testBit_mod_two_pow, ← Nat.shiftRight_eq_div_pow,
      Nat.testBit_shiftRight, Nat.testBit_two_pow_sub_one]
    have hadd : 32 + (j - 32) = j := by omega
    rw [hadd]

theorem and_ffff (y : Nat) : 0x0000ffff &&& y = y % 65536 := by
  have hc : (0x0000ffff : Nat) = 2 ^ 16 - 1 := by norm_num
  rw [hc, Nat.and_comm, Nat.and_pow_two_sub_one_eq_mod]
  try norm_num

/-! ### Arithmetic characterizations of the logic blocks -/

/-- The output expression in closed arithmetic form: bit 0 is the register's low
bit and bits 1–3 are register bits 17–19. -/
theorem nbaValUpd_eq (r : Nat) : nbaValUpd r = r % 2 + 2 * (r / 131072 % 8) := by
  unfold nbaValUpd
  have h1 : 1 &&& (r % 0x100000000) = r % 2 := by
    rw [Nat.one_and_eq_mod_two]
    omega
  rw [h1, and_fourteen]
  have hz : ((((r >>> 0x11) % 0x100000000) <<< 1) % 0x100000000) / 2 % 8 = r / 131072 % 8 := by
    rw [Nat.shiftLeft_eq, Nat.shiftRight_eq_div_pow]
    norm_num
    omega
  rw [hz]
  have h2 : (2 : Nat) * (r / 131072 % 8) = 2 ^ 1 * (r / 131072 % 8) := by norm_num
  have h3 : r % 2 < 2 ^ 1 := by omega
  rw [h2, ← Nat.mul_add_lt_is_or h3]
  omega

theorem stlValUpd_eq (r : Nat) : stlValUpd r = r % 2 + 2 * (r / 131072 % 8) :=
  nbaValUpd_eq r

/-- The next-register computation with reset low, in closed arithmetic form:
bits 32–63 are preserved, bits 16–31 become `(bits 16–31 of regs) + 1 mod 2^16`
(the second field update reads bits 16–47 of the pre-edge register, but the
`& 0xffff` mask reduces that to bits 16–31), and bits 0–15 become
`(regs + 1) mod 2^16` (the surviving low bits of the 32-bit increment). -/
theorem nbaRegsUpd_false_eq (r : Nat) :
    nbaRegsUpd false r =
      4294967296 * (r / 4294967296 % 4294967296) +
        (65536 * ((r / 65536 + 1) % 65536) + (r + 1) % 65536) := by
  unfold nbaRegsUpd
  rw [if_neg (by simp)]
  simp only []
  rw [and_hi_mask, Nat.shiftRight_eq_div_pow]
  obtain ⟨A, hA⟩ : ∃ A, r / 4294967296 % 4294967296 = A := ⟨_, rfl⟩
  obtain ⟨l, hl⟩ : ∃ l, (1 + r % 4294967296) % 4294967296 = l := ⟨_, rfl⟩
  obtain ⟨u, hu⟩ : ∃ u, (1 + r / 2 ^ 16 % 4294967296) % 4294967296 = u := ⟨_, rfl⟩
  obtain ⟨B, hB⟩ : ∃ B, (r / 65536 + 1) % 65536 = B := ⟨_, rfl⟩
  obtain ⟨C, hC⟩ : ∃ C, (r + 1) % 65536 = C := ⟨_, rfl⟩
  have hu2 : (1 + r / 65536 % 4294967296) % 4294967296 = u := by rw [← hu]; norm_num
  have hAlt : A < 4294967296 := by omega
  have hllt : l < 4294967296 := by omega
  have hBlt : B < 65536 := by omega
  have hClt : C < 65536 := by omega
  have hlC : l % 65536 = C := by clear hu hu2 hA; omega
  have huB : u % 65536 = B := by clear hl hA hC hlC; omega
  rw [hA, hl, hu]
  clear hu hu2 hl hA
  have h1 : 4294967296 * A ||| l = 4294967296 * A + l := by
    have h := Nat.mul_add_lt_is_or (show l < 2 ^ 32 by omega) A
    norm_num at h
    exact h.symm
  rw [h1, and_mid_mask, and_ffff, huB, Nat.shiftLeft_eq]
  have h2 : (4294967296 * A + l) / 4294967296 % 4294967296 = A := by omega
  have h3 : (4294967296 * A + l) % 65536 = C := by omega
  rw [h2, h3]
  have h4 : 4294967296 * A + C = 4294967296 * A ||| C := by
    have h := Nat.mul_add_lt_is_or (show C < 2 ^ 32 by omega) A
    norm_num at h
    exact h
  have h5 : B * 2 ^ 16 = 65536 * B := by
    norm_num
    ring
  have h6 : (65536 : Nat) * B ||| C = 65536 * B + C := by
    have h := Nat.mul_add_lt_is_or (show C < 2 ^ 16 by omega) B
    norm_num at h
    exact h.symm
  have h7 : 4294967296 * A ||| (65536 * B + C) = 4294967296 * A + (65536 * B + C) := by
    have h := Nat.mul_add_lt_is_or (show 65536 * B + C < 2 ^ 32 by omega) A
    norm_num at h
    exact h.symm
  rw [h4, h5, Nat.lor_assoc, Nat.lor_comm C (65536 * B), h6, h7, hB, hC]

theorem nbaRegsUpd_true_eq (r : Nat) : nbaRegsUpd true r = 0 := rfl

/-- The NBA block is a single-commit update: it equals the record update that
writes `nbaRegsUpd reset regs` (a function of the pre-edge register only) into
the register once and drives `val` from the committed value. -/
theorem nba_sequent_eq (s : VState) :
    nba_sequent s =
      { s with regs := nbaRegsUpd s.reset s.regs,
               val := nbaValUpd (nbaRegsUpd s.reset s.regs) } := by
  unfold nba_sequent nbaRegsUpd nbaValUpd
  cases hr : s.reset <;> simp

theorem stl_sequent_val (s : VState) : (stl_sequent s).val = stlValUpd s.regs := rfl

theorem stl_sequent_regs (s : VState) : (stl_sequent s).regs = s.regs := rfl

/-! ### Phase-function characterizations -/

@[simp]
theorem eval_phase_act_fst (s : VState) :
    (eval_phase_act s).1 = ((s.clock && !s.vtrigprevClock) || (s.reset && !s.vtrigprevReset)) := by
  unfold eval_phase_act eval_triggers_act
  simp only []
  split <;> rfl

@[simp]
theorem eval_phase_act_clock (s : VState) : (eval_phase_act s).2.clock = s.clock := by
  unfold eval_phase_act eval_triggers_act eval_act
  simp only []
  split <;> rfl

@[simp]
theorem eval_phase_act_reset (s : VState) : (eval_phase_act s).2.reset = s.reset := by
  unfold eval_phase_act eval_triggers_act eval_act
  simp only []
  split <;> rfl

@[simp]
theorem eval_phase_act_vstlFirstIteration (s : VState) :
    (eval_phase_act s).2.vstlFirstIteration = s.vstlFirstIteration := by
  unfold eval_phase_act eval_triggers_act eval_act
  simp only []
  split <;> rfl

@[simp]
theorem eval_phase_act_vtrigprevClock (s : VState) :
    (eval_phase_act s).2.vtrigprevClock = s.clock := by
  unfold eval_phase_act eval_triggers_act eval_act
  simp only []
  split <;> rfl

@[simp]
theorem eval_phase_act_vtrigprevReset (s : VState) :
    (eval_phase_act s).2.vtrigprevReset = s.reset := by
  unfold eval_phase_act eval_triggers_act eval_act
  simp only []
  split <;> rfl

@[simp]
theorem eval_phase_act_vactContinue (s : VState) :
    (eval_phase_act s).2.vactContinue = s.vactContinue := by
  unfold eval_phase_act eval_triggers_act eval_act
  simp only []
  split <;> rfl

@[simp]
theorem eval_phase_act_val (s : VState) : (eval_phase_act s).2.val = s.val := by
  unfold eval_phase_act eval_triggers_act eval_act
  simp only []
  split <;> rfl

@[simp]
theorem eval_phase_act_vactIterCount2 (s : VState) :
    (eval_phase_act s).2.vactIterCount = s.vactIterCount := by
  unfold eval_phase_act eval_triggers_act eval_act
  simp only []
  split <;> rfl

@[simp]
theorem eval_phase_act_regs (s : VState) : (eval_phase_act s).2.regs = s.regs := by
  unfold eval_phase_act eval_triggers_act eval_act
  simp only []
  split <;> rfl

@[simp]
theorem eval_phase_act_vstlTriggered (s : VState) :
    (eval_phase_act s).2.vstlTriggered = s.vstlTriggered := by
  unfold eval_phase_act eval_triggers_act eval_act
  simp only []
  split <;> rfl

@[simp]
theorem eval_phase_act_vact0 (s : VState) :
    (eval_phase_act s).2.vactTriggered0 = (s.clock && !s.vtrigprevClock) := by
  unfold eval_phase_act eval_triggers_act eval_act
  simp only []
  split <;> rfl

@[simp]
theorem eval_phase_act_vact1 (s : VState) :
    (eval_phase_act s).2.vactTriggered1 = (s.reset && !s.vtrigprevReset) := by
  unfold eval_phase_act eval_triggers_act eval_act
  simp only []
  split <;> rfl

@[simp]
theorem eval_phase_act_vnba0 (s : VState) :
    (eval_phase_act s).2.vnbaTriggered0 =
      (s.vnbaTriggered0 || (s.clock && !s.vtrigprevClock)) := by
  unfold eval_phase_act eval_triggers_act eval_act
  simp only []
  split <;> simp_all

@[simp]
theorem eval_phase_act_vnba1 (s : VState) :
    (eval_phase_act s).2.vnbaTriggered1 =
      (s.vnbaTriggered1 || (s.reset && !s.vtrigprevReset)) := by
  unfold eval_phase_act eval_triggers_act eval_act
  simp only []
  split <;> simp_all

theorem eval_phase_nba_skip (s : VState)
    (h0 : s.vnbaTriggered0 = false) (h1 : s.vnbaTriggered1 = false) :
    eval_phase_nba s = (false, s) := by
  unfold eval_phase_nba
  simp [h0, h1]

theorem eval_phase_nba_run (s : VState)
    (h : (s.vnbaTriggered0 || s.vnbaTriggered1) = true) :
    eval_phase_nba s =
      (true, { nba_sequent s with vnbaTriggered0 := false, vnbaTriggered1 := false }) := by
  unfold eval_phase_nba eval_nba
  simp [h]

/-! ### Loop stepping lemmas -/

theorem actLoop_stop (s : VState) (h : s.vactContinue = false) : actLoop s = .ok s := by
  rw [actLoop.eq_def]
  simp [h]

theorem actLoop_cap (s : VState) (hc : s.vactContinue = true)
    (hn : 100 < s.vactIterCount) : actLoop s = .error actNonConvergence := by
  rw [actLoop.eq_def]
  simp [hc, hn]

theorem nbaLoop_stop (n : Nat) (s : VState) : nbaLoop n false s = .ok s := by
  rw [nbaLoop.eq_def]
  simp

theorem settleLoop_stop (n : Nat) (s : VState) : settleLoop n false s = .ok s := by
  rw [settleLoop.eq_def]
  simp

theorem actLoop_entry_norise (s : VState)
    (h3 : (s.clock && !s.vtrigprevClock) = false)
    (h4 : (s.reset && !s.vtrigprevReset) = false) :
    actLoop { s with vactIterCount := 0, vactContinue := true } =
      .ok { s with
        vactIterCount := 1
        vactContinue := false
        vactTriggered0 := false
        vactTriggered1 := false
        vtrigprevClock := s.clock
        vtrigprevReset := s.reset } := by
  rw [actLoop.eq_def]
  simp only [eval_phase_act_fst]
  norm_num [h3, h4]
  rw [actLoop_stop _ (by simp)]
  refine congrArg Except.ok ?_
  apply VState.ext <;> simp [h3, h4]

theorem actLoop_entry_rise (s : VState)
    (h : ((s.clock && !s.vtrigprevClock) || (s.reset && !s.vtrigprevReset)) = true) :
    actLoop { s with vactIterCount := 0, vactContinue := true } =
      .ok { s with
        vactIterCount := 2
        vactContinue := false
        vactTriggered0 := false
        vactTriggered1 := false
        vnbaTriggered0 := s.vnbaTriggered0 || (s.clock && !s.vtrigprevClock)
        vnbaTriggered1 := s.vnbaTriggered1 || (s.reset && !s.vtrigprevReset)
        vtrigprevClock := s.clock
        vtrigprevReset := s.reset } := by
  rw [actLoop.eq_def]
  simp only [eval_phase_act_fst]
  norm_num [h]
  rw [actLoop.eq_def]
  simp only [eval_phase_act_fst, eval_phase_act_clock, eval_phase_act_reset,
    eval_phase_act_vtrigprevClock, eval_phase_act_vtrigprevReset, eval_phase_act_vactContinue,
    eval_phase_act_vactIterCount2]
  norm_num
  rw [actLoop_stop _ (by simp)]
  refine congrArg Except.ok ?_
  apply VState.ext <;> simp [h]

theorem eval_phase_nba_eq (s : VState) :
    eval_phase_nba s =
      ((s.vnbaTriggered0 || s.vnbaTriggered1),
        if (s.vnbaTriggered0 || s.vnbaTriggered1) = true then
          { nba_sequent s with vnbaTriggered0 := false, vnbaTriggered1 := false }
        else s) := by
  unfold eval_phase_nba eval_nba
  split <;> simp_all

theorem nbaLoop_step (n : Nat) (s : VState) (hn : ¬ 100 < n) :
    nbaLoop n true s =
      match actLoop { s with vactIterCount := 0, vactContinue := true } with
      | .error e => .error e
      | .ok s2 => nbaLoop (n + 1) (eval_phase_nba s2).1 (eval_phase_nba s2).2 := by
  rw [nbaLoop.eq_def]
  simp [hn]

theorem settleLoop_step (n : Nat) (s : VState) (hn : ¬ 100 < n) :
    settleLoop n true s =
      settleLoop (n + 1) (eval_phase_stl s).1
        { (eval_phase_stl s).2 with vstlFirstIteration := false } := by
  rw [settleLoop.eq_def]
  simp [hn]

/-- One full evaluation from a state with empty NBA trigger vector and no rising
edge: nothing executes beyond trigger evaluation and bookkeeping; in particular
the register and the output are untouched. -/
theorem eval_norise (s : VState)
    (h0 : s.vnbaTriggered0 = false) (h1 : s.vnbaTriggered1 = false)
    (h3 : (s.clock && !s.vtrigprevClock) = false)
    (h4 : (s.reset && !s.vtrigprevReset) = false) :
    eval s = .ok { s with
      vactIterCount := 1
      vactContinue := false
      vactTriggered0 := false
      vactTriggered1 := false
      vtrigprevClock := s.clock
      vtrigprevReset := s.reset } := by
  unfold eval
  rw [nbaLoop_step 0 s (by omega), actLoop_entry_norise s h3 h4]
  simp only []
  rw [eval_phase_nba_eq]
  simp only [h0, h1]
  norm_num
  rw [nbaLoop_stop]

/-- One full evaluation from a state with empty NBA trigger vector and a rising
edge on clock or reset: the NBA sequential block runs exactly once, against the
pre-edge register value. -/
theorem eval_rise (s : VState)
    (h0 : s.vnbaTriggered0 = false) (h1 : s.vnbaTriggered1 = false)
    (h : ((s.clock && !s.vtrigprevClock) || (s.reset && !s.vtrigprevReset)) = true) :
    eval s = .ok { s with
      regs := nbaRegsUpd s.reset s.regs
      val := nbaValUpd (nbaRegsUpd s.reset s.regs)
      vactIterCount := 1
      vactContinue := false
      vactTriggered0 := false
      vactTriggered1 := false
      vnbaTriggered0 := false
      vnbaTriggered1 := false
      vtrigprevClock := s.clock
      vtrigprevReset := s.reset } := by
  unfold eval
  rw [nbaLoop_step 0 s (by omega), actLoop_entry_rise s h]
  simp only []
  rw [eval_phase_nba_eq]
  have hcond : (({ s with
      vactIterCount := 2
      vactContinue := false
      vactTriggered0 := false
      vactTriggered1 := false
      vnbaTriggered0 := s.vnbaTriggered0 || (s.clock && !s.vtrigprevClock)
      vnbaTriggered1 := s.vnbaTriggered1 || (s.reset && !s.vtrigprevReset)
      vtrigprevClock := s.clock
      vtrigprevReset := s.reset } : VState).vnbaTriggered0 ||
      ({ s with
      vactIterCount := 2
      vactContinue := false
      vactTriggered0 := false
      vactTriggered1 := false
      vnbaTriggered0 := s.vnbaTriggered0 || (s.clock && !s.vtrigprevClock)
      vnbaTriggered1 := s.vnbaTriggered1 || (s.reset && !s.vtrigprevReset)
      vtrigprevClock := s.clock
      vtrigprevReset := s.reset } : VState).vnbaTriggered1) = true := by
    simp only []
    cases hc1 : (s.clock && !s.vtrigprevClock) <;>
      cases hc2 : (s.reset && !s.vtrigprevReset) <;> simp_all
  rw [if_pos hcond]
  simp only [hcond]
  rw [nba_sequent_eq]
  simp only []
  rw [nbaLoop_step 1 _ (by omega)]
  rw [actLoop_entry_norise _ (by simp) (by simp)]
  simp only []
  rw [eval_phase_nba_eq]
  norm_num
  exact nbaLoop_stop 2 _

/-! ### Stability of evaluation results -/

/-- The shape every state produced by a successful run of the main evaluation
loop has: previous-value snapshots agree with the current inputs and all
trigger vectors are clear, so another evaluation with unchanged inputs finds no
work to do. -/
def StableAfterEval (t : VState) : Prop :=
  t.vnbaTriggered0 = false ∧ t.vnbaTriggered1 = false ∧
    t.vactTriggered0 = false ∧ t.vactTriggered1 = false ∧
    t.vtrigprevClock = t.clock ∧ t.vtrigprevReset = t.reset ∧
    t.vactIterCount = 1 ∧ t.vactContinue = false

theorem nbaLoop_cap (n : Nat) (s : VState) (hn : 100 < n) :
    nbaLoop n true s = .error nbaNonConvergence := by
  rw [nbaLoop.eq_def]
  simp [hn]

theorem settleLoop_cap (n : Nat) (s : VState) (hn : 100 < n) :
    settleLoop n true s = .error stlNonConvergence := by
  rw [settleLoop.eq_def]
  simp [hn]

theorem nbaLoop_ok_stable :
    ∀ g n s t, 101 - n ≤ g → nbaLoop n true s = .ok t → StableAfterEval t := by
  intro g
  induction g with
  | zero =>
    intro n s t hg h
    rw [nbaLoop_cap n s (by omega)] at h
    exact absurd h (by simp)
  | succ g ih =>
    intro n s t hg h
    by_cases hn : 100 < n
    · rw [nbaLoop_cap n s hn] at h
      exact absurd h (by simp)
    · rw [nbaLoop_step n s hn] at h
      by_cases hrise : ((s.clock && !s.vtrigprevClock) || (s.reset && !s.vtrigprevReset)) = true
      · rw [actLoop_entry_rise s hrise] at h
        simp only [] at h
        rw [eval_phase_nba_eq] at h
        simp only [] at h
        have hcond : ((s.vnbaTriggered0 || (s.clock && !s.vtrigprevClock)) ||
            (s.vnbaTriggered1 || (s.reset && !s.vtrigprevReset))) = true := by
          cases hc1 : (s.clock && !s.vtrigprevClock) <;>
            cases hc2 : (s.reset && !s.vtrigprevReset) <;> simp_all
        rw [hcond, if_pos rfl] at h
        exact ih (n + 1) _ t (by omega) h
      · have hc : (s.clock && !s.vtrigprevClock) = false := by
          cases hcv : (s.clock && !s.vtrigprevClock) <;> simp_all
        have hr : (s.reset && !s.vtrigprevReset) = false := by
          cases hrv : (s.reset && !s.vtrigprevReset) <;> simp_all
        rw [actLoop_entry_norise s hc hr] at h
        simp only [] at h
        rw [eval_phase_nba_eq] at h
        simp only [] at h
        by_cases hex : (s.vnbaTriggered0 || s.vnbaTriggered1) = true
        · rw [hex, if_pos rfl] at h
          exact ih (n + 1) _ t (by omega) h
        · have h0 : s.vnbaTriggered0 = false := by
            cases h0v : s.vnbaTriggered0 <;> simp_all
          have h1 : s.vnbaTriggered1 = false := by
            cases h1v : s.vnbaTriggered1 <;> simp_all
          rw [h0, h1] at h
          norm_num at h
          rw [nbaLoop_stop] at h
          simp only [Except.ok.injEq] at h
          subst h
          simp [StableAfterEval, h0, h1]

theorem eval_ok_stable (s t : VState) (h : eval s = .ok t) : StableAfterEval t :=
  nbaLoop_ok_stable 101 0 s t (by omega) h

theorem eval_stable_fix (t : VState) (h : StableAfterEval t) : eval t = .ok t := by
  obtain ⟨h1, h2, h3, h4, h5, h6, h7, h8⟩ := h
  rw [eval_norise t h1 h2 (by rw [h5]; simp) (by rw [h6]; simp)]
  refine congrArg Except.ok ?_
  apply VState.ext <;> simp [h3, h4, h5, h6, h7, h8]

theorem evalStep_ok_stable (m t : MState) (h : evalStep m = .ok t) :
    t.didInit = true ∧ StableAfterEval t.top := by
  unfold evalStep at h
  by_cases hd : m.didInit
  · rw [if_pos hd] at h
    cases he : eval m.top with
    | error e =>
      rw [he] at h
      exact absurd h (by simp)
    | ok x =>
      rw [he] at h
      simp only [Except.ok.injEq] at h
      subst h
      exact ⟨rfl, eval_ok_stable _ _ he⟩
  · rw [if_neg hd] at h
    cases hs : eval_settle (eval_initial (eval_static m.top)) with
    | error e =>
      rw [hs] at h
      exact absurd h (by simp)
    | ok s2 =>
      rw [hs] at h
      simp only [] at h
      cases he : eval s2 with
      | error e =>
        rw [he] at h
        exact absurd h (by simp)
      | ok x =>
        rw [he] at h
        simp only [Except.ok.injEq] at h
        subst h
        exact ⟨rfl, eval_ok_stable _ _ he⟩

/-! ### Register preservation and bounds -/

@[simp]
theorem eval_phase_stl_regs (s : VState) : (eval_phase_stl s).2.regs = s.regs := by
  cases hf : s.vstlFirstIteration <;>
    simp [eval_phase_stl, eval_triggers_stl, eval_stl, stl_sequent, hf]

theorem settleLoop_ok_regs :
    ∀ g n c s t, 101 - n ≤ g → settleLoop n c s = .ok t → t.regs = s.regs := by
  intro g
  induction g with
  | zero =>
    intro n c s t hg h
    cases c
    · rw [settleLoop_stop] at h
      simp only [Except.ok.injEq] at h
      subst h
      rfl
    · rw [settleLoop_cap n s (by omega)] at h
      exact absurd h (by simp)
  | succ g ih =>
    intro n c s t hg h
    cases c
    · rw [settleLoop_stop] at h
      simp only [Except.ok.injEq] at h
      subst h
      rfl
    · by_cases hn : 100 < n
      · rw [settleLoop_cap n s hn] at h
        exact absurd h (by simp)
      · rw [settleLoop_step n s hn] at h
        have hres := ih (n + 1) _ _ t (by omega) h
        simpa using hres

theorem eval_settle_regs (s t : VState) (h : eval_settle s = .ok t) : t.regs = s.regs := by
  unfold eval_settle at h
  have hres := settleLoop_ok_regs 101 0 true _ t (by omega) h
  simpa using hres

theorem nbaRegsUpd_lt (b : Bool) (r : Nat) (h : r < 4294967296) :
    nbaRegsUpd b r < 4294967296 := by
  cases b
  · rw [nbaRegsUpd_false_eq]
    have h2 : r / 4294967296 = 0 := by omega
    rw [h2]
    have b1 : (r / 65536 + 1) % 65536 < 65536 := Nat.mod_lt _ (by norm_num)
    have b2 : (r + 1) % 65536 < 65536 := Nat.mod_lt _ (by norm_num)
    omega
  · rw [nbaRegsUpd_true_eq]
    norm_num

theorem nbaLoop_regs_lt :
    ∀ g n c s t, 101 - n ≤ g → s.regs < 4294967296 → nbaLoop n c s = .ok t →
      t.regs < 4294967296 := by
  intro g
  induction g with
  | zero =>
    intro n c s t hg hs h
    cases c
    · rw [nbaLoop_stop] at h
      simp only [Except.ok.injEq] at h
      subst h
      exact hs
    · rw [nbaLoop_cap n s (by omega)] at h
      exact absurd h (by simp)
  | succ g ih =>
    intro n c s t hg hs h
    cases c
    · rw [nbaLoop_stop] at h
      simp only [Except.ok.injEq] at h
      subst h
      exact hs
    · by_cases hn : 100 < n
      · rw [nbaLoop_cap n s hn] at h
        exact absurd h (by simp)
      · rw [nbaLoop_step n s hn] at h
        by_cases hrise : ((s.clock && !s.vtrigprevClock) || (s.reset && !s.vtrigprevReset)) = true
        · rw [actLoop_entry_rise s hrise] at h
          simp only [] at h
          rw [eval_phase_nba_eq] at h
          simp only [] at h
          cases hB : ((s.vnbaTriggered0 || (s.clock && !s.vtrigprevClock)) ||
              (s.vnbaTriggered1 || (s.reset && !s.vtrigprevReset)))
          · rw [hB] at h
            norm_num at h
            exact ih (n + 1) false _ t (by omega) (by simpa using hs) h
          · rw [hB, if_pos rfl] at h
            refine ih (n + 1) true _ t (by omega) ?_ h
            rw [nba_sequent_eq]
            simp only []
            exact nbaRegsUpd_lt _ _ hs
        · have hc : (s.clock && !s.vtrigprevClock) = false := by
            cases hcv : (s.clock && !s.vtrigprevClock) <;> simp_all
          have hr : (s.reset && !s.vtrigprevReset) = false := by
            cases hrv : (s.reset && !s.vtrigprevReset) <;> simp_all
          rw [actLoop_entry_norise s hc hr] at h
          simp only [] at h
          rw [eval_phase_nba_eq] at h
          simp only [] at h
          cases hB : (s.vnbaTriggered0 || s.vnbaTriggered1)
          · rw [hB] at h
            norm_num at h
            exact ih (n + 1) false _ t (by omega) (by simpa using hs) h
          · rw [hB, if_pos rfl] at h
            refine ih (n + 1) true _ t (by omega) ?_ h
            rw [nba_sequent_eq]
            simp only []
            exact nbaRegsUpd_lt _ _ hs

theorem evalStep_regs_lt (m t : MState) (h0 : m.top.regs < 4294967296)
    (h : evalStep m = .ok t) : t.top.regs < 4294967296 := by
  unfold evalStep at h
  by_cases hd : m.didInit
  · rw [if_pos hd] at h
    cases he : eval m.top with
    | error e =>
      rw [he] at h
      exact absurd h (by simp)
    | ok x =>
      rw [he] at h
      simp only [Except.ok.injEq] at h
      subst h
      exact nbaLoop_regs_lt 101 0 true _ x (by omega) h0 he
  · rw [if_neg hd] at h
    cases hs : eval_settle (eval_initial (eval_static m.top)) with
    | error e =>
      rw [hs] at h
      exact absurd h (by simp)
    | ok s2 =>
      rw [hs] at h
      simp only [] at h
      cases he : eval s2 with
      | error e =>
        rw [he] at h
        exact absurd h (by simp)
      | ok x =>
        rw [he] at h
        simp only [Except.ok.injEq] at h
        subst h
        have hs2 : s2.regs = m.top.regs := by
          have hval := eval_settle_regs _ _ hs
          simpa [eval_initial, eval_static] using hval
        exact nbaLoop_regs_lt 101 0 true _ x (by omega) (by omega) he

theorem reachable_regs_lt (m : MState) (h : Reachable m) : m.top.regs < 4294967296 := by
  induction h with
  | construct m hm => omega
  | setClock m b hr ih => simpa using ih
  | setReset m b hr ih => simpa using ih
  | step m t hr hs ih => exact evalStep_regs_lt m t ih hs

/-! ### Claim theorems -/

/-- C1: for every initial value of the 64-bit internal register, one evaluation
taken with reset asserted and a rising clock edge sets the internal register to
0 and produces an output value whose bit 0 is 0 and whose bits 1–3 are 0. -/
theorem reset_clears_state (s : VState)
    (hclk : s.clock = true) (hprev : s.vtrigprevClock = false) (hrst : s.reset = true)
    (h0 : s.vnbaTriggered0 = false) (h1 : s.vnbaTriggered1 = false) :
    ∃ t, eval s = .ok t ∧ t.regs = 0 ∧ t.val % 2 = 0 ∧ t.val / 2 % 8 = 0 := by
  refine ⟨_, eval_rise s h0 h1 (by rw [hclk, hprev]; simp), ?_, ?_, ?_⟩ <;>
    simp [hrst, nbaRegsUpd_true_eq] <;> decide

/-- C1 witness: a concrete instantiation with an arbitrary nonzero register. -/
theorem reset_clears_state_witness :
    ∃ t, eval ⟨true, true, false, false, false, false, 0, 0, 0xdeadbeefcafebabe,
        false, false, false, false, false⟩ = .ok t ∧
      t.regs = 0 ∧ t.val % 2 = 0 ∧ t.val / 2 % 8 = 0 :=
  reset_clears_state _ rfl rfl rfl rfl rfl

/-- C2 counterexample: at register value 0x20000, the settle-block output is 2
while the spec-worded composition gives 4 — the code drives output bits 1–3
from register bits 17–19, not from the low three bits of the 16-bit field. -/
theorem output_composition_counterexample :
    (stl_sequent ⟨false, false, false, false, false, false, 0, 0, 0x20000,
        false, false, false, false, false⟩).val ≠ specOutputComposition 0x20000 := by
  decide

/-- C2 (amended): after the settle block and after the NBA block the 32-bit
output equals the composition: bit 0 = the low bit of the register (the low
bit of the low field); bits 1–3 = bits 1–3 of the 16-bit field, i.e. register
bits 17–19; all remaining bits (4–31) are zero. -/
theorem output_composition_after_blocks (s : VState) :
    (stl_sequent s).val = s.regs % 2 + 2 * (s.regs / 131072 % 8) ∧
      (nba_sequent s).val =
        (nba_sequent s).regs % 2 + 2 * ((nba_sequent s).regs / 131072 % 8) ∧
      s.regs % 2 + 2 * (s.regs / 131072 % 8) < 16 := by
  refine ⟨?_, ?_, ?_⟩
  · rw [stl_sequent_val, stlValUpd_eq]
  · rw [nba_sequent_eq]
    simp only []
    rw [nbaValUpd_eq]
  · have h1 : s.regs % 2 < 2 := Nat.mod_lt _ (by norm_num)
    have h2 : s.regs / 131072 % 8 < 8 := Nat.mod_lt _ (by norm_num)
    omega

/-- C3: with reset deasserted, one rising-clock-edge evaluation starting from
low-field value 0xFFFFFFFF produces low-field 0x00000000 (the 32-bit increment
wraps), and the 16-bit field (register bits 16–31) becomes its previous value
plus one modulo 0x10000, computed from the pre-edge register value. -/
theorem increment_wraps (s : VState)
    (hclk : s.clock = true) (hprev : s.vtrigprevClock = false) (hrst : s.reset = false)
    (h0 : s.vnbaTriggered0 = false) (h1 : s.vnbaTriggered1 = false)
    (hlow : s.regs % 4294967296 = 4294967295) :
    ∃ t, eval s = .ok t ∧ t.regs % 4294967296 = 0 ∧
      t.regs / 65536 % 65536 = (s.regs / 65536 % 65536 + 1) % 65536 := by
  refine ⟨_, eval_rise s h0 h1 (by rw [hclk, hprev]; simp), ?_, ?_⟩ <;>
  · simp only [hrst]
    rw [nbaRegsUpd_false_eq]
    omega

/-- C3 witness: the all-ones low field at a concrete state. -/
theorem increment_wraps_witness :
    ∃ t, eval ⟨true, false, false, false, false, false, 0, 0, 0xffffffff,
        false, false, false, false, false⟩ = .ok t ∧
      t.regs % 4294967296 = 0 ∧
      t.regs / 65536 % 65536 = ((0xffffffff : Nat) / 65536 % 65536 + 1) % 65536 :=
  increment_wraps _ rfl rfl rfl rfl rfl (by norm_num)

/-- C4 counterexample: when the settle loop exceeds the cap at iteration count
101, the diagnostic is the fixed message "Settle region did not converge.",
which does not contain the iteration count. -/
theorem convergence_diagnostic_counterexample :
    settleLoop 101 true ⟨false, false, false, false, false, false, 0, 0, 0,
        false, false, false, false, false⟩ = .error stlNonConvergence ∧
      ¬ ("101".data <:+: stlNonConvergence.msg.data) ∧
      stlNonConvergence.msg = "Settle region did not converge." := by
  refine ⟨settleLoop_cap 101 _ (by norm_num), by decide, rfl⟩

/-- C4 (amended): for each of the settle, active and NBA regions, whenever the
region's convergence loop reaches an iteration count exceeding the cap of 100,
evaluation aborts with the fatal Non-Convergence diagnostic naming the region
(the iteration count itself is not part of the diagnostic message), and the
error propagates out without retry. -/
theorem convergence_cap_enforcement (n : Nat) (s : VState) (hn : 100 < n) :
    settleLoop n true s = .error stlNonConvergence ∧
      (s.vactContinue = true → 100 < s.vactIterCount →
        actLoop s = .error actNonConvergence) ∧
      nbaLoop n true s = .error nbaNonConvergence ∧
      stlNonConvergence.msg = "Settle region did not converge." ∧
      actNonConvergence.msg = "Active region did not converge." ∧
      nbaNonConvergence.msg = "NBA region did not converge." :=
  ⟨settleLoop_cap n s hn, fun hc hi => actLoop_cap s hc hi, nbaLoop_cap n s hn,
    rfl, rfl, rfl⟩

/-- C4 witness: the cap fires at iteration count 101 in all three regions. -/
theorem convergence_cap_witness :
    settleLoop 101 true ⟨false, false, false, false, false, true, 0, 101, 0,
        false, false, false, false, false⟩ = .error stlNonConvergence ∧
      actLoop ⟨false, false, false, false, false, true, 0, 101, 0,
        false, false, false, false, false⟩ = .error actNonConvergence ∧
      nbaLoop 101 true ⟨false, false, false, false, false, true, 0, 101, 0,
        false, false, false, false, false⟩ = .error nbaNonConvergence := by
  have h := convergence_cap_enforcement 101
    ⟨false, false, false, false, false, true, 0, 101, 0,
      false, false, false, false, false⟩ (by norm_num)
  exact ⟨h.1, h.2.1 rfl (by norm_num), h.2.2.1⟩

/-- C5: evaluation is idempotent on stable state: if a call of `eval_step`
returns model state `t`, calling it again without changing the clock or reset
inputs returns exactly `t` — the output value, the internal register and every
other signal are identical, and the second call performs no further signal
changes. -/
theorem evaluate_idempotent (m t : MState) (h : evalStep m = .ok t) :
    evalStep t = .ok t := by
  obtain ⟨hd, hs⟩ := evalStep_ok_stable m t h
  cases t with
  | mk di top =>
    simp only [] at hd hs
    subst hd
    unfold evalStep
    rw [if_pos rfl, eval_stable_fix top hs]

/-- C5 witness: a stable concrete state is reproduced exactly. -/
theorem evaluate_idempotent_witness :
    evalStep ⟨true, ⟨false, false, false, false, false, false, 0, 1, 0,
        false, false, false, false, false⟩⟩ =
      .ok ⟨true, ⟨false, false, false, false, false, false, 0, 1, 0,
        false, false, false, false, false⟩⟩ := by
  refine evaluate_idempotent
    ⟨true, ⟨false, false, false, false, false, false, 0, 1, 0,
      false, false, false, false, false⟩⟩ _ ?_
  have he : eval ⟨false, false, false, false, false, false, 0, 1, 0,
      false, false, false, false, false⟩ =
      .ok ⟨false, false, false, false, false, false, 0, 1, 0,
        false, false, false, false, false⟩ :=
    eval_stable_fix _ ⟨rfl, rfl, rfl, rfl, rfl, rfl, rfl, rfl⟩
  unfold evalStep
  rw [if_pos rfl, he]

/-- C6 counterexample: with reset asserted the NBA block clears the whole
64-bit register, so starting from register value 2^63 the bits 48–63 are not
unchanged — they drop from 0x8000 to 0. -/
theorem reset_frame_counterexample :
    (nba_sequent ⟨false, true, false, false, false, false, 0, 0,
        0x8000000000000000, false, false, false, false, false⟩).regs >>> 48 ≠
      (0x8000000000000000 : Nat) >>> 48 := by
  decide

/-- C6 (amended): when reset is asserted, the NBA block clears the ENTIRE
64-bit internal register to zero — the low 32 bits and the next 16 bits, and
also bits 48–63 (for every initial register value). -/
theorem reset_clears_whole_register (s : VState) (h : s.reset = true) :
    (nba_sequent s).regs = 0 := by
  rw [nba_sequent_eq]
  simp only [h]
  rfl

/-- C6 witness: the whole register is cleared at a concrete all-ones value. -/
theorem reset_clears_whole_register_witness :
    (nba_sequent ⟨false, true, false, false, false, false, 0, 0,
        0xffffffffffffffff, false, false, false, false, false⟩).regs = 0 :=
  reset_clears_whole_register _ rfl

/-- C7: within one execution of the NBA sequential block, every read of
register state used to compute the next-state value reads the pre-edge
register (the committed value is the function `nbaRegsUpd` of the block-entry
register alone), the new value is committed by a single write at the end of the
block, and the output is driven from that committed value; the actual register
is never observed partially updated. -/
theorem nba_single_commit (s : VState) :
    nba_sequent s =
      { s with regs := nbaRegsUpd s.reset s.regs,
               val := nbaValUpd (nbaRegsUpd s.reset s.regs) } :=
  nba_sequent_eq s

/-- C8: a watched signal holding 1 both in the previous snapshot and currently
(a 1-to-1 non-transition) produces no trigger bit; and when neither watched
signal makes a 0-to-1 transition, an evaluation leaves the internal register
and the output untouched — the sequential block runs only on a rising edge. -/
theorem edge_only_triggering (s : VState)
    (h0 : s.vnbaTriggered0 = false) (h1 : s.vnbaTriggered1 = false) :
    (s.clock = true → s.vtrigprevClock = true →
      (eval_triggers_act s).vactTriggered0 = false) ∧
      (s.reset = true → s.vtrigprevReset = true →
        (eval_triggers_act s).vactTriggered1 = false) ∧
      ((s.clock && !s.vtrigprevClock) = false → (s.reset && !s.vtrigprevReset) = false →
        ∃ t, eval s = .ok t ∧ t.regs = s.regs ∧ t.val = s.val) := by
  refine ⟨?_, ?_, ?_⟩
  · intro hc hp
    simp [eval_triggers_act, hc, hp]
  · intro hc hp
    simp [eval_triggers_act, hc, hp]
  · intro h3 h4
    exact ⟨_, eval_norise s h0 h1 h3 h4, rfl, rfl⟩

/-- C8 witness: both watched signals held at 1 across the evaluation. -/
theorem edge_only_triggering_witness :
    ((eval_triggers_act ⟨true, true, false, true, true, false, 7, 1, 99,
        false, false, false, false, false⟩).vactTriggered0 = false) ∧
      ((eval_triggers_act ⟨true, true, false, true, true, false, 7, 1, 99,
        false, false, false, false, false⟩).vactTriggered1 = false) ∧
      (∃ t, eval ⟨true, true, false, true, true, false, 7, 1, 99,
          false, false, false, false, false⟩ = .ok t ∧
        t.regs = 99 ∧ t.val = 7) := by
  have h := edge_only_triggering ⟨true, true, false, true, true, false, 7, 1, 99,
    false, false, false, false, false⟩ rfl rfl
  exact ⟨h.1 rfl rfl, h.2.1 rfl rfl, h.2.2 rfl rfl⟩

/-- C9: in every reachable model state, bits 63:32 of the internal 64-bit
register are zero: the register is zero-initialized at construction, the reset
branch writes zero, and both field increments preserve the high bits, so no
operation can ever set them. -/
theorem reachable_high_bits_zero (m : MState) (h : Reachable m) :
    m.top.regs >>> 32 = 0 := by
  have hlt := reachable_regs_lt m h
  rw [Nat.shiftRight_eq_div_pow]
  norm_num
  omega

/-- C9 witness: a freshly constructed instance. -/
theorem reachable_high_bits_zero_witness :
    Reachable ⟨false, ⟨false, false, false, false, false, false, 0, 0, 0,
        false, false, false, false, false⟩⟩ ∧
      (⟨false, ⟨false, false, false, false, false, false, 0, 0, 0,
        false, false, false, false, false⟩⟩ : MState).top.regs >>> 32 = 0 :=
  ⟨.construct _ rfl, reachable_high_bits_zero _ (.construct _ rfl)⟩

/-- C10: the settle-phase output computation and the NBA-phase final output
assignment are the same function of the internal register: for every register
value they assign the same output, and each block's output assignment is that
function of its register operand. -/
theorem settle_nba_output_equivalence :
    (∀ regs : Nat, stlValUpd regs = nbaValUpd regs) ∧
      (∀ s : VState, (stl_sequent s).val = stlValUpd s.regs) ∧
      (∀ s : VState, (nba_sequent s).val = nbaValUpd ((nba_sequent s).regs)) := by
  refine ⟨fun regs => rfl, fun s => rfl, fun s => ?_⟩
  rw [nba_sequent_eq]
